import Mathlib

/-!
Verification development for the swing-trade strategy simulator
(`src/tools/strategy_simulator.py`).

The simulator's arithmetic is over Python floats; it is embedded here over
the rationals `ℚ`, with Python's decimal `round(x, n)` modelled as
round-half-to-even at `n` decimal places, and Python's `ZeroDivisionError`
modelled by returning `none` from the operation in which the division
occurs.  Structures and functions keep the source's names and field order.
-/

namespace StrategySim

/-- Round a rational to the nearest integer, ties going to the even
integer (the tie-breaking rule of Python's `round`). -/
def roundHalfEven (y : ℚ) : ℤ :=
  let f := ⌊y⌋
  if y - f < 1/2 then f
  else if (1 : ℚ)/2 < y - f then f + 1
  else if f % 2 = 0 then f else f + 1

/-- Python's `round(x, n)`: round half to even at `n` decimal places. -/
def pyRound (n : ℕ) (x : ℚ) : ℚ :=
  (roundHalfEven (x * 10 ^ n) : ℚ) / 10 ^ n

/-- One lot of the gradual sell (dataclass `GradualLot`). -/
structure GradualLot where
  sell_percent : ℚ
  tp_percent : ℚ
  executed : Bool := false
  executed_at : Option String := none
  executed_price : Option ℚ := none
  realized_pnl : Option ℚ := none
deriving DecidableEq

/-- Strategy configuration (dataclass `StrategyConfig`). -/
structure StrategyConfig where
  token : String := "SOL/USDT"
  exchange : String := "OKX"
  entry_price : ℚ := 36
  tp_percent : ℚ := 10
  sl_percent : ℚ := 5
  fee_percent : ℚ := 1/2
  gradual_enabled : Bool := false
  gradual_lots : List GradualLot := []
  check_interval_min : ℤ := 15
deriving DecidableEq

/-- Result of one sold lot (dataclass `LotResult`). -/
structure LotResult where
  lot_index : ℕ
  sell_percent : ℚ
  tp_percent : ℚ
  lot_quantity : ℚ
  sell_price : ℚ
  gross_value : ℚ
  cost : ℚ
  gross_profit : ℚ
  fee : ℚ
  net_profit : ℚ
  net_return_pct : ℚ
deriving DecidableEq

/-- Full result of a scenario simulation (dataclass `SimulationResult`).
`risk_reward` embeds the source's `risk_reward_ratio` field. -/
structure SimulationResult where
  scenario : String
  config : StrategyConfig
  quantity : ℚ := 0
  total_cost : ℚ := 0
  lot_results : List LotResult := []
  total_gross_profit : ℚ := 0
  total_fees : ℚ := 0
  total_net_profit : ℚ := 0
  total_net_return_pct : ℚ := 0
  sl_loss : Option ℚ := none
  sl_return_pct : Option ℚ := none
  risk_reward : ℚ := 0
deriving DecidableEq

/-- `StrategySimulator.simulate_single_sell`.  All divisions are by
`total_cost = entry_price * quantity`; a zero total cost raises
`ZeroDivisionError` in Python, modelled by `none`. -/
def simulate_single_sell (c : StrategyConfig) (quantity : ℚ) :
    Option SimulationResult :=
  let total_cost := c.entry_price * quantity
  if total_cost = 0 then none
  else
    let sell_price := c.entry_price * (1 + c.tp_percent / 100)
    let gross_value := quantity * sell_price
    let gross_profit := gross_value - total_cost
    let fee := gross_value * (c.fee_percent / 100)
    let net_profit := gross_profit - fee
    let sl_price := c.entry_price * (1 - c.sl_percent / 100)
    let sl_value := quantity * sl_price
    let sl_loss_gross := sl_value - total_cost
    let sl_fee := sl_value * (c.fee_percent / 100)
    let sl_loss := sl_loss_gross - sl_fee
    some
      { scenario := "Venda Única"
        config := c
        quantity := quantity
        total_cost := total_cost
        lot_results :=
          [{ lot_index := 0
             sell_percent := 100
             tp_percent := c.tp_percent
             lot_quantity := quantity
             sell_price := sell_price
             gross_value := gross_value
             cost := total_cost
             gross_profit := gross_profit
             fee := fee
             net_profit := net_profit
             net_return_pct := net_profit / total_cost * 100 }]
        total_gross_profit := gross_profit
        total_fees := fee
        total_net_profit := net_profit
        total_net_return_pct := net_profit / total_cost * 100
        sl_loss := some sl_loss
        sl_return_pct := some (sl_loss / total_cost * 100)
        risk_reward :=
          if sl_loss ≠ 0 ∧ 0 < |sl_loss| then |net_profit / sl_loss| else 0 }

/-- One stage of `StrategySimulator.simulate_gradual_sell` (the body of its
`for` loop): the lot result of configured lot `lc` at index `i`.  The
per-stage return divides by the stage's own allocated cost; a zero
allocated cost raises `ZeroDivisionError`, modelled by `none`. -/
def gradual_lot_result (c : StrategyConfig) (quantity total_cost : ℚ)
    (i : ℕ) (lc : GradualLot) : Option LotResult :=
  let lot_pct := lc.sell_percent / 100
  let lot_qty := quantity * lot_pct
  let lot_cost := total_cost * lot_pct
  if lot_cost = 0 then none
  else
    let sell_price := c.entry_price * (1 + lc.tp_percent / 100)
    let gross_value := lot_qty * sell_price
    let gross_profit := gross_value - lot_cost
    let fee := gross_value * (c.fee_percent / 100)
    let net_profit := gross_profit - fee
    some
      { lot_index := i
        sell_percent := lc.sell_percent
        tp_percent := lc.tp_percent
        lot_quantity := lot_qty
        sell_price := sell_price
        gross_value := gross_value
        cost := lot_cost
        gross_profit := gross_profit
        fee := fee
        net_profit := net_profit
        net_return_pct := net_profit / lot_cost * 100 }

/-- The loop of `simulate_gradual_sell` over the configured lots, starting
at index `i`: the list of lot results, or `none` as soon as one stage
fails. -/
def gradual_lot_results (c : StrategyConfig) (quantity total_cost : ℚ) :
    ℕ → List GradualLot → Option (List LotResult)
  | _, [] => some []
  | i, lc :: rest =>
    match gradual_lot_result c quantity total_cost i lc,
        gradual_lot_results c quantity total_cost (i + 1) rest with
    | some r, some rs => some (r :: rs)
    | _, _ => none

/-- `StrategySimulator.simulate_gradual_sell`: every configured lot reaches
its TP.  An empty lot list returns the bare result at once. -/
def simulate_gradual_sell (c : StrategyConfig) (quantity : ℚ) :
    Option SimulationResult :=
  let total_cost := c.entry_price * quantity
  if c.gradual_lots = [] then
    some
      { scenario := "Venda Gradual"
        config := c
        quantity := quantity
        total_cost := total_cost
        lot_results := []
        total_gross_profit := 0
        total_fees := 0
        total_net_profit := 0
        total_net_return_pct := 0
        sl_loss := none
        sl_return_pct := none
        risk_reward := 0 }
  else
    match gradual_lot_results c quantity total_cost 0 c.gradual_lots with
    | none => none
    | some lots =>
      let total_gross_profit := (lots.map LotResult.gross_profit).sum
      let total_fees := (lots.map LotResult.fee).sum
      let total_net_profit := (lots.map LotResult.net_profit).sum
      let sl_price := c.entry_price * (1 - c.sl_percent / 100)
      let sl_value := quantity * sl_price
      let sl_loss_gross := sl_value - total_cost
      let sl_fee := sl_value * (c.fee_percent / 100)
      let sl_loss := sl_loss_gross - sl_fee
      some
        { scenario := "Venda Gradual"
          config := c
          quantity := quantity
          total_cost := total_cost
          lot_results := lots
          total_gross_profit := total_gross_profit
          total_fees := total_fees
          total_net_profit := total_net_profit
          total_net_return_pct := total_net_profit / total_cost * 100
          sl_loss := some sl_loss
          sl_return_pct := some (sl_loss / total_cost * 100)
          risk_reward :=
            if sl_loss ≠ 0 ∧ 0 < |sl_loss| then |total_net_profit / sl_loss|
            else 0 }

/-- `StrategySimulator.simulate_partial_exit`: the first `lots_hit`
configured lots reach their TP and the remainder of the position is sold at
the stop-loss price. -/
def simulate_partial_exit (c : StrategyConfig) (quantity : ℚ)
    (lots_hit : ℕ) : Option SimulationResult :=
  let total_cost := c.entry_price * quantity
  if c.gradual_lots = [] then
    some
      { scenario := "Parcial (" ++ toString lots_hit ++ " lotes)"
        config := c
        quantity := quantity
        total_cost := total_cost }
  else
    let firstLots := c.gradual_lots.take (min lots_hit c.gradual_lots.length)
    match gradual_lot_results c quantity total_cost 0 firstLots with
    | none => none
    | some lots =>
      let sold_pct := (firstLots.map GradualLot.sell_percent).sum
      let remaining_pct := (100 - sold_pct) / 100
      let tailLots : Option (List LotResult) :=
        if remaining_pct > 1/1000 then
          let remaining_qty := quantity * remaining_pct
          let remaining_cost := total_cost * remaining_pct
          if remaining_cost = 0 then none
          else
            let sl_price := c.entry_price * (1 - c.sl_percent / 100)
            let sl_value := remaining_qty * sl_price
            let sl_loss_gross := sl_value - remaining_cost
            let sl_fee := sl_value * (c.fee_percent / 100)
            let sl_net := sl_loss_gross - sl_fee
            some
              [{ lot_index := lots_hit
                 sell_percent := remaining_pct * 100
                 tp_percent := -c.sl_percent
                 lot_quantity := remaining_qty
                 sell_price := sl_price
                 gross_value := sl_value
                 cost := remaining_cost
                 gross_profit := sl_loss_gross
                 fee := sl_fee
                 net_profit := sl_net
                 net_return_pct := sl_net / remaining_cost * 100 }]
        else some []
      match tailLots with
      | none => none
      | some extra =>
        let all_lots := lots ++ extra
        let total_gross_profit := (all_lots.map LotResult.gross_profit).sum
        let total_fees := (all_lots.map LotResult.fee).sum
        let total_net_profit := (all_lots.map LotResult.net_profit).sum
        let sl_price := c.entry_price * (1 - c.sl_percent / 100)
        let sl_value := quantity * sl_price
        let sl_loss_gross := sl_value - total_cost
        let sl_fee := sl_value * (c.fee_percent / 100)
        some
          { scenario :=
              "Parcial: " ++ toString lots_hit ++ " lote(s) TP + SL no resto"
            config := c
            quantity := quantity
            total_cost := total_cost
            lot_results := all_lots
            total_gross_profit := total_gross_profit
            total_fees := total_fees
            total_net_profit := total_net_profit
            total_net_return_pct := total_net_profit / total_cost * 100
            sl_loss := some (sl_loss_gross - sl_fee)
            sl_return_pct := some ((sl_loss_gross - sl_fee) / total_cost * 100)
            risk_reward := 0 }

/-- Mutable per-stage record of the walker (`lots` list built at the top of
`simulate_price_series`). -/
structure WalkLot where
  sell_pct : ℚ
  tp_pct : ℚ
  executed : Bool
deriving DecidableEq

/-- The walker's per-call mutable state: stage flags, remaining quantity and
the running totals. -/
structure WalkState where
  lots : List WalkLot
  remaining : ℚ
  realized : ℚ
  fees : ℚ
deriving DecidableEq

/-- Event log entry of `simulate_price_series` (the dicts appended to
`events`); each rounded field carries the value the source stores. -/
inductive PSEvent where
  | stopLoss (tick : ℕ) (price change_pct sell_qty sell_pct gross_pnl fee net_pnl : ℚ)
  | tpLot (tick : ℕ) (price change_pct : ℚ) (lot_num : ℕ)
      (sell_qty sell_pct tp_pct gross_pnl fee net_pnl : ℚ)
  | takeProfit (tick : ℕ) (price change_pct sell_qty sell_pct gross_pnl fee net_pnl : ℚ)
  | summary (total_realized_pnl total_fees remaining_qty remaining_pct return_pct : ℚ)
      (status : String)
deriving DecidableEq

/-- True exactly on `summary` events. -/
def PSEvent.isSummary : PSEvent → Bool
  | .summary _ _ _ _ _ _ => true
  | _ => false

/-- The inner `for i, lot in enumerate(lots)` scan of the walker: the first
lot whose `executed` flag is false and whose threshold is reached by
`change_pct`, with its index and the lot list after marking it executed;
`none` when no lot fires. -/
def fireFirst (change_pct : ℚ) : List WalkLot → Option (ℕ × WalkLot × List WalkLot)
  | [] => none
  | l :: ls =>
    if l.executed = false ∧ change_pct ≥ l.tp_pct then
      some (0, l, { l with executed := true } :: ls)
    else
      match fireFirst change_pct ls with
      | none => none
      | some (i, x, ls') => some (i + 1, x, l :: ls')

/-- One tick of `simulate_price_series`: the events it appends, the state
after the tick, and whether the walk continues to the next tick (`false`
models the `break` statements). -/
def doTick (c : StrategyConfig) (quantity total_cost : ℚ) (tick : ℕ)
    (price : ℚ) (s : WalkState) : List PSEvent × WalkState × Bool :=
  let change_pct := (price - c.entry_price) / c.entry_price * 100
  if change_pct ≤ -c.sl_percent ∧ s.remaining > 1/10000 then
    let sl_value := s.remaining * price
    let sl_cost := s.remaining / quantity * total_cost
    let sl_loss := sl_value - sl_cost
    let sl_fee := sl_value * (c.fee_percent / 100)
    let sl_net := sl_loss - sl_fee
    ([.stopLoss tick price (pyRound 2 change_pct) (pyRound 8 s.remaining)
        (pyRound 1 (s.remaining / quantity * 100)) (pyRound 2 sl_loss)
        (pyRound 2 sl_fee) (pyRound 2 sl_net)],
      { s with remaining := 0, realized := s.realized + sl_net,
               fees := s.fees + sl_fee },
      false)
  else if s.lots ≠ [] then
    match fireFirst change_pct s.lots with
    | none => ([], s, !(s.remaining ≤ 1/10000))
    | some (i, lot, lots') =>
      let lot_pct := lot.sell_pct / 100
      let lot_qty := quantity * lot_pct
      let lot_cost := total_cost * lot_pct
      let sell_value := lot_qty * price
      let profit := sell_value - lot_cost
      let fee := sell_value * (c.fee_percent / 100)
      let net := profit - fee
      let s' : WalkState :=
        { lots := lots', remaining := s.remaining - lot_qty,
          realized := s.realized + net, fees := s.fees + fee }
      ([.tpLot tick price (pyRound 2 change_pct) (i + 1) (pyRound 8 lot_qty)
          lot.sell_pct lot.tp_pct (pyRound 2 profit) (pyRound 2 fee)
          (pyRound 2 net)],
        s', !(s'.remaining ≤ 1/10000))
  else if change_pct ≥ c.tp_percent ∧ s.remaining > 1/10000 then
    let sell_value := s.remaining * price
    let profit := sell_value - total_cost
    let fee := sell_value * (c.fee_percent / 100)
    let net := profit - fee
    ([.takeProfit tick price (pyRound 2 change_pct) (pyRound 8 s.remaining)
        100 (pyRound 2 profit) (pyRound 2 fee) (pyRound 2 net)],
      { s with remaining := 0, realized := s.realized + net,
               fees := s.fees + fee },
      false)
  else ([], s, !(s.remaining ≤ 1/10000))

/-- The tick loop of `simulate_price_series`: events of the remaining ticks
and the state at the end of the walk. -/
def walk (c : StrategyConfig) (quantity total_cost : ℚ) :
    ℕ → WalkState → List ℚ → List PSEvent × WalkState
  | _, s, [] => ([], s)
  | tick, s, price :: rest =>
    let r := doTick c quantity total_cost tick price s
    if r.2.2 then
      let r' := walk c quantity total_cost (tick + 1) r.2.1 rest
      (r.1 ++ r'.1, r'.2)
    else (r.1, r.2.1)

/-- The states the walk passes through: the state before each evaluated
tick, and the state at the end of the walk. -/
def walkStates (c : StrategyConfig) (quantity total_cost : ℚ) :
    ℕ → WalkState → List ℚ → List WalkState
  | _, s, [] => [s]
  | tick, s, price :: rest =>
    let r := doTick c quantity total_cost tick price s
    s :: (if r.2.2 then walkStates c quantity total_cost (tick + 1) r.2.1 rest
          else [r.2.1])

/-- The walker's initial state. -/
def initState (c : StrategyConfig) (quantity : ℚ) : WalkState :=
  { lots := c.gradual_lots.map fun l =>
      { sell_pct := l.sell_percent, tp_pct := l.tp_percent, executed := false }
    remaining := quantity
    realized := 0
    fees := 0 }

/-- The SUMMARY entry appended after the walk ends. -/
def mkSummary (quantity total_cost : ℚ) (s : WalkState) : PSEvent :=
  .summary (pyRound 2 s.realized) (pyRound 2 s.fees) (pyRound 8 s.remaining)
    (if quantity > 0 then pyRound 1 (s.remaining / quantity * 100) else 0)
    (if total_cost > 0 then pyRound 2 (s.realized / total_cost * 100) else 0)
    (if s.remaining ≤ 1/10000 then "COMPLETED" else "OPEN")

/-- `StrategySimulator.simulate_price_series`.  A zero entry price raises
`ZeroDivisionError` at the first tick's `change_pct`, modelled by `none`;
with an empty price sequence no tick is evaluated and only the summary is
produced. -/
def simulate_price_series (c : StrategyConfig) (quantity : ℚ)
    (prices : List ℚ) : Option (List PSEvent) :=
  if c.entry_price = 0 ∧ prices ≠ [] then none
  else
    let total_cost := c.entry_price * quantity
    let r := walk c quantity total_cost 0 (initState c quantity) prices
    some (r.1 ++ [mkSummary quantity total_cost r.2])

/-- A list of rationals read head to tail never increases. -/
def nonincreasing : List ℚ → Bool
  | [] => true
  | [_] => true
  | a :: b :: t => decide (b ≤ a) && nonincreasing (b :: t)

/-- The `return_pct` field of the final summary of an event log, when the
log ends in a summary. -/
def lastReturnPct (o : Option (List PSEvent)) : Option ℚ :=
  match o with
  | none => none
  | some evs =>
    match evs.getLast? with
    | some (.summary _ _ _ _ rp _) => some rp
    | _ => none

/-- One entry of the payload's `take_profit_levels` list. -/
structure TpLevelPayload where
  percent : ℚ
  sell_percent : ℚ
  executed : Bool
deriving DecidableEq

/-- One entry of the payload's `gradual_sell.lots` list. -/
structure LotPayload where
  sell_percent : ℚ
  tp_percent : ℚ
  executed : Bool
deriving DecidableEq

/-- The payload's `gradual_sell` object. -/
structure GradualSellPayload where
  enabled : Bool
  lots : List LotPayload
deriving DecidableEq

/-- The payload's `stop_loss` object. -/
structure StopLossPayload where
  enabled : Bool
  percent : ℚ
  trailing : Bool
deriving DecidableEq

/-- The payload's `config` object; `gradual_sell` and `take_profit_levels`
are `none` when the source leaves the key out of the dict. -/
structure ConfigPayload where
  fee_percent : ℚ
  stop_loss : StopLossPayload
  mode : String
  gradual_sell : Option GradualSellPayload
  take_profit_levels : Option (List TpLevelPayload)
deriving DecidableEq

/-- The top-level payload of `generate_api_payload`. -/
structure ApiPayload where
  name : String
  strategy_type : String
  symbol : String
  exchange_id : String
  exchange_name : String
  check_interval_secs : ℤ
  config : ConfigPayload
deriving DecidableEq

/-- `StrategySimulator.generate_api_payload`. -/
def generate_api_payload (c : StrategyConfig) : ApiPayload :=
  let base : ConfigPayload :=
    { fee_percent := c.fee_percent
      stop_loss := { enabled := true, percent := c.sl_percent, trailing := false }
      mode := "spot"
      gradual_sell := none
      take_profit_levels := none }
  let cfg : ConfigPayload :=
    if c.gradual_enabled ∧ c.gradual_lots ≠ [] then
      { base with
        gradual_sell := some
          { enabled := true
            lots := c.gradual_lots.map fun l =>
              { sell_percent := l.sell_percent, tp_percent := l.tp_percent,
                executed := false } } }
    else
      { base with
        take_profit_levels :=
          some [{ percent := c.tp_percent, sell_percent := 100, executed := false }] }
  { name := ((c.token.splitOn "/").headD "") ++ " Swing "
      ++ (if c.gradual_enabled then "Gradual" else "Simple")
    strategy_type := "swing_trade"
    symbol := c.token
    exchange_id := "seu_exchange_id"
    exchange_name := c.exchange
    check_interval_secs := c.check_interval_min * 60
    config := cfg }

/-! ### Concrete configurations used by the claim theorems -/

/-- The configuration of the spec's worked single-sell example:
entry 36, TP 10%, SL 5%, fee 0.5% (the source's defaults). -/
def c6cfg : StrategyConfig :=
  { entry_price := 36, tp_percent := 10, sl_percent := 5, fee_percent := 1/2 }

/-- A degenerate configuration with a negative entry price and two gradual
stages. -/
def negEntryCfg : StrategyConfig :=
  { entry_price := -36, gradual_enabled := true,
    gradual_lots := [{ sell_percent := 30, tp_percent := 10 },
                     { sell_percent := 70, tp_percent := 15 }] }

/-- A configuration whose stage sell-percentages over-allocate the position
(60 + 60 = 120). -/
def cfg60 : StrategyConfig :=
  { gradual_lots := [{ sell_percent := 60, tp_percent := 10 },
                     { sell_percent := 60, tp_percent := 20 }] }

/-- A well-formed two-stage configuration (50 + 50 = 100). -/
def cfg5050 : StrategyConfig :=
  { gradual_lots := [{ sell_percent := 50, tp_percent := 10 },
                     { sell_percent := 50, tp_percent := 20 }] }

/-- The source's default configuration. -/
def stdCfg : StrategyConfig := {}

/-- A degenerate configuration with a negative entry price and no stages. -/
def cfgNeg : StrategyConfig := { entry_price := -1 }

/-- A minimal configuration whose stop-loss leg loses exactly nothing. -/
def cfgW7 : StrategyConfig :=
  { entry_price := 1, tp_percent := 0, sl_percent := 0, fee_percent := 0 }

/-- The single-sell result of `cfgW7` with quantity 1. -/
def rW7 : SimulationResult :=
  { scenario := "Venda Única", config := cfgW7, quantity := 1, total_cost := 1,
    lot_results := [{ lot_index := 0, sell_percent := 100, tp_percent := 0,
                      lot_quantity := 1, sell_price := 1, gross_value := 1,
                      cost := 1, gross_profit := 0, fee := 0, net_profit := 0,
                      net_return_pct := 0 }],
    total_gross_profit := 0, total_fees := 0, total_net_profit := 0,
    total_net_return_pct := 0, sl_loss := some 0, sl_return_pct := some 0,
    risk_reward := 0 }

/-! ### Claim theorems -/

/-- C6: for entry 36, TP 10, SL 5, fee 0.5 and quantity 0.44,
`simulate_single_sell` returns total cost 15.84, sell price 39.6, gross
proceeds 17.424, fee 0.08712 and net profit 1.49688; its net return percent
(exactly 9.45) is within 0.001 of the quoted 9.4503; the stop-loss leg's
price is 34.2, its net loss -0.86724 and its return percent exactly -5.475;
and the risk/reward ratio (exactly 126/73) is within 0.001 of the quoted
1.726. -/
theorem claim_C6_single_sell_values :
    (simulate_single_sell c6cfg (11/25)).map SimulationResult.total_cost
      = some (396/25) ∧
    (simulate_single_sell c6cfg (11/25)).map
        (fun r => r.lot_results.map LotResult.sell_price) = some [198/5] ∧
    (simulate_single_sell c6cfg (11/25)).map
        (fun r => r.lot_results.map LotResult.gross_value) = some [2178/125] ∧
    (simulate_single_sell c6cfg (11/25)).map SimulationResult.total_fees
      = some (1089/12500) ∧
    (simulate_single_sell c6cfg (11/25)).map SimulationResult.total_net_profit
      = some (18711/12500) ∧
    (simulate_single_sell c6cfg (11/25)).map
        (fun r => |r.total_net_return_pct - 94503/10000|) = some (3/10000) ∧
    (3/10000 : ℚ) < 1/1000 ∧
    c6cfg.entry_price * (1 - c6cfg.sl_percent / 100) = 171/5 ∧
    (simulate_single_sell c6cfg (11/25)).map SimulationResult.sl_loss
      = some (some (-(21681/25000))) ∧
    (simulate_single_sell c6cfg (11/25)).map SimulationResult.sl_return_pct
      = some (some (-(219/40))) ∧
    (simulate_single_sell c6cfg (11/25)).map
        (fun r => |r.risk_reward - 863/500|) = some (1/36500) ∧
    (1/36500 : ℚ) < 1/1000 := by
  norm_num [simulate_single_sell, c6cfg, abs]

/-- C3 (code behaviour at the claimed failure points): no core operation
validates the configuration.  With a negative entry price every operation
returns an ordinary result (no "invalid configuration" error), and with
zero quantity or zero entry price the return-percent divisions raise
`ZeroDivisionError` (modelled `none`) instead of an explicit configuration
error. -/
theorem claim_C3_no_validation :
    (simulate_single_sell negEntryCfg (11/25)).isSome = true ∧
    (simulate_gradual_sell negEntryCfg (11/25)).isSome = true ∧
    (simulate_partial_exit negEntryCfg (11/25) 1).isSome = true ∧
    (simulate_price_series negEntryCfg (11/25) [30]).isSome = true ∧
    simulate_single_sell stdCfg 0 = none ∧
    simulate_single_sell { stdCfg with entry_price := 0 } 1 = none ∧
    simulate_price_series { stdCfg with entry_price := 0 } 1 [10] = none := by
  refine ⟨?_, ?_, ?_, ?_, ?_, ?_, ?_⟩
  · norm_num [simulate_single_sell, negEntryCfg]
  · norm_num [simulate_gradual_sell, gradual_lot_results, gradual_lot_result,
      negEntryCfg]
    split <;> rfl
  · norm_num [simulate_partial_exit, gradual_lot_results, gradual_lot_result,
      negEntryCfg]
    split <;> rfl
  · norm_num [simulate_price_series, negEntryCfg]
  · norm_num [simulate_single_sell, stdCfg]
  · norm_num [simulate_single_sell, stdCfg]
  · norm_num [simulate_price_series, stdCfg]

/-- C10: with an empty stage list `simulate_gradual_sell` returns the bare
result — quantity and total cost set, empty lot list, all totals zero,
risk/reward zero, and `sl_loss`/`sl_return_pct` left `none`. -/
theorem claim_C10_empty_stages (c : StrategyConfig) (q : ℚ)
    (h : c.gradual_lots = []) :
    simulate_gradual_sell c q = some
      { scenario := "Venda Gradual", config := c, quantity := q,
        total_cost := c.entry_price * q, lot_results := [],
        total_gross_profit := 0, total_fees := 0, total_net_profit := 0,
        total_net_return_pct := 0, sl_loss := none, sl_return_pct := none,
        risk_reward := 0 } := by
  simp [simulate_gradual_sell, h]

/-- Witness for C10 at the default configuration with the stage list empty
and quantity 2. -/
theorem claim_C10_witness :
    stdCfg.gradual_lots = [] ∧
    simulate_gradual_sell stdCfg 2 = some
      { scenario := "Venda Gradual", config := stdCfg, quantity := 2,
        total_cost := stdCfg.entry_price * 2, lot_results := [],
        total_gross_profit := 0, total_fees := 0, total_net_profit := 0,
        total_net_return_pct := 0, sl_loss := none, sl_return_pct := none,
        risk_reward := 0 } :=
  ⟨rfl, claim_C10_empty_stages stdCfg 2 rfl⟩

/-- C9: `generate_api_payload` always sets `check_interval_secs` to
`check_interval_min * 60`; when staged mode is active (gradual enabled and
a non-empty lot list, the source's condition) the config carries a
`gradual_sell` object with `enabled = true` and the ordered mirrored lots
and no `take_profit_levels`; otherwise it carries a single-entry
`take_profit_levels` list and no `gradual_sell`. -/
theorem claim_C9_payload (c : StrategyConfig) :
    (generate_api_payload c).check_interval_secs = c.check_interval_min * 60 ∧
    (generate_api_payload c).config.gradual_sell =
      (if c.gradual_enabled ∧ c.gradual_lots ≠ [] then
        some { enabled := true,
               lots := c.gradual_lots.map fun l =>
                 { sell_percent := l.sell_percent, tp_percent := l.tp_percent,
                   executed := false } }
       else none) ∧
    (generate_api_payload c).config.take_profit_levels =
      (if c.gradual_enabled ∧ c.gradual_lots ≠ [] then none
       else some [{ percent := c.tp_percent, sell_percent := 100,
                    executed := false }]) := by
  by_cases h : c.gradual_enabled ∧ c.gradual_lots ≠ [] <;>
    simp [generate_api_payload, h]

/-- A stop-loss magnitude strictly positive is the same condition as a
non-zero stop-loss. -/
theorem rr_cond_iff (s : ℚ) : (s ≠ 0 ∧ 0 < |s|) ↔ 0 < |s| :=
  ⟨fun h => h.2, fun h => ⟨abs_pos.mp h, h⟩⟩

/-- C7: in `simulate_single_sell` and `simulate_gradual_sell` the
risk/reward ratio equals `|net profit / sl_loss|` exactly when the
stop-loss magnitude is positive, and 0 otherwise (also when `sl_loss` was
never computed); a zero-magnitude stop-loss never raises an error or
yields an infinite ratio. -/
theorem claim_C7_risk_reward (c : StrategyConfig) (q : ℚ)
    (r : SimulationResult)
    (h : simulate_single_sell c q = some r ∨ simulate_gradual_sell c q = some r) :
    r.risk_reward =
      match r.sl_loss with
      | some s => if 0 < |s| then |r.total_net_profit / s| else 0
      | none => 0 := by
  rcases h with h | h
  · unfold simulate_single_sell at h
    by_cases hc : c.entry_price * q = 0
    · rw [if_pos hc] at h; cases h
    · rw [if_neg hc] at h
      obtain rfl := (Option.some.injEq _ _).mp h.symm
      simp only
      rw [if_congr (rr_cond_iff _) rfl rfl]
  · unfold simulate_gradual_sell at h
    by_cases hl : c.gradual_lots = []
    · rw [if_pos hl] at h
      obtain rfl := (Option.some.injEq _ _).mp h.symm
      rfl
    · rw [if_neg hl] at h
      rcases hg : gradual_lot_results c q (c.entry_price * q) 0 c.gradual_lots
        with _ | lots
      · rw [hg] at h; cases h
      · rw [hg] at h
        obtain rfl := (Option.some.injEq _ _).mp h.symm
        simp only
        rw [if_congr (rr_cond_iff _) rfl rfl]

/-- Witness for C7: at `cfgW7` (whose stop-loss leg nets exactly zero) the
single-sell result's risk/reward ratio is 0. -/
theorem claim_C7_witness :
    (simulate_single_sell cfgW7 1 = some rW7 ∨
      simulate_gradual_sell cfgW7 1 = some rW7) ∧
    rW7.risk_reward = 0 :=
  have hss : simulate_single_sell cfgW7 1 = some rW7 := by
    norm_num [simulate_single_sell, cfgW7, rW7]
  ⟨Or.inl hss,
    (claim_C7_risk_reward cfgW7 1 rW7 (Or.inl hss)).trans (by simp [rW7])⟩

/-- A two-stage configuration with a unit entry price, no fee and no
stop-loss distance. -/
def cfgW8 : StrategyConfig :=
  { entry_price := 1, sl_percent := 0, fee_percent := 0,
    gradual_lots := [{ sell_percent := 50, tp_percent := 0 },
                     { sell_percent := 50, tp_percent := 0 }] }

/-- The gradual-sell result of `cfgW8` with quantity 100. -/
def rW8 : SimulationResult :=
  { scenario := "Venda Gradual", config := cfgW8, quantity := 100,
    total_cost := 100,
    lot_results :=
      [{ lot_index := 0, sell_percent := 50, tp_percent := 0,
         lot_quantity := 50, sell_price := 1, gross_value := 50, cost := 50,
         gross_profit := 0, fee := 0, net_profit := 0, net_return_pct := 0 },
       { lot_index := 1, sell_percent := 50, tp_percent := 0,
         lot_quantity := 50, sell_price := 1, gross_value := 50, cost := 50,
         gross_profit := 0, fee := 0, net_profit := 0, net_return_pct := 0 }],
    total_gross_profit := 0, total_fees := 0, total_net_profit := 0,
    total_net_return_pct := 0, sl_loss := some 0, sl_return_pct := some 0,
    risk_reward := 0 }

/-- A successful stage result allocates exactly the stage's pro-rata share
of the total cost. -/
theorem gradual_lot_result_cost {c : StrategyConfig} {q tc : ℚ} {i : ℕ}
    {lc : GradualLot} {r : LotResult}
    (h : gradual_lot_result c q tc i lc = some r) :
    r.cost = tc * (lc.sell_percent / 100) := by
  simp only [gradual_lot_result] at h
  split at h
  · cases h
  · obtain rfl := Option.some.inj h
    rfl

/-- The costs of a successful run of the gradual-sell loop sum to the
total cost scaled by the stages' summed sell-percentage. -/
theorem gradual_lot_results_cost_sum (c : StrategyConfig) (q tc : ℚ) :
    ∀ (ls : List GradualLot) (i : ℕ) (lots : List LotResult),
      gradual_lot_results c q tc i ls = some lots →
      (lots.map LotResult.cost).sum =
        tc * ((ls.map GradualLot.sell_percent).sum / 100) := by
  intro ls
  induction ls with
  | nil =>
    intro i lots h
    simp only [gradual_lot_results] at h
    obtain rfl := Option.some.inj h
    simp
  | cons lc rest ih =>
    intro i lots h
    simp only [gradual_lot_results] at h
    rcases h1 : gradual_lot_result c q tc i lc with _ | r <;> rw [h1] at h
    · cases h
    rcases h2 : gradual_lot_results c q tc (i + 1) rest with _ | rs <;>
      rw [h2] at h
    · cases h
    obtain rfl := Option.some.inj h
    have hr := gradual_lot_result_cost h1
    have hrec := ih (i + 1) rs h2
    simp only [List.map_cons, List.sum_cons, hr, hrec]
    ring

/-- C8 (amended): for a non-empty stage list and a positive total cost
basis, the per-lot allocated costs of `simulate_gradual_sell` sum to the
total cost exactly when the stage sell-percentages sum to 100, and to
strictly less exactly when they sum to less than 100 (over-allocated stage
lists sum to strictly more). -/
theorem claim_C8_cost_allocation (c : StrategyConfig) (q : ℚ)
    (r : SimulationResult) (hne : c.gradual_lots ≠ [])
    (hpos : 0 < c.entry_price * q)
    (h : simulate_gradual_sell c q = some r) :
    (((r.lot_results.map LotResult.cost).sum = r.total_cost) ↔
      (c.gradual_lots.map GradualLot.sell_percent).sum = 100) ∧
    (((r.lot_results.map LotResult.cost).sum < r.total_cost) ↔
      (c.gradual_lots.map GradualLot.sell_percent).sum < 100) := by
  simp only [simulate_gradual_sell] at h
  rw [if_neg hne] at h
  rcases hg : gradual_lot_results c q (c.entry_price * q) 0 c.gradual_lots
    with _ | lots <;> rw [hg] at h
  · cases h
  · obtain rfl := Option.some.inj h
    have hsum :=
      gradual_lot_results_cost_sum c q (c.entry_price * q) c.gradual_lots 0
        lots hg
    simp only [hsum]
    constructor
    · constructor
      · intro hEq
        have h1 : c.entry_price * q *
            ((c.gradual_lots.map GradualLot.sell_percent).sum / 100) =
            c.entry_price * q * 1 := by rw [hEq, mul_one]
        have h2 := mul_left_cancel₀ (ne_of_gt hpos) h1
        linarith
      · intro hS
        rw [hS]
        norm_num
    · constructor
      · intro hLt
        by_contra hS
        push_neg at hS
        have h1 : (1 : ℚ) ≤
            (c.gradual_lots.map GradualLot.sell_percent).sum / 100 := by
          linarith
        nlinarith
      · intro hS
        have h1 :
            c.entry_price * q *
              ((c.gradual_lots.map GradualLot.sell_percent).sum / 100) <
            c.entry_price * q * 1 :=
          mul_lt_mul_of_pos_left (by linarith) hpos
        simpa using h1

/-- Witness for C8 at `cfgW8` (percentages summing to exactly 100): both
equivalences hold of its concrete gradual-sell result. -/
theorem claim_C8_witness :
    cfgW8.gradual_lots ≠ [] ∧ (0 : ℚ) < cfgW8.entry_price * 100 ∧
    simulate_gradual_sell cfgW8 100 = some rW8 ∧
    (((rW8.lot_results.map LotResult.cost).sum = rW8.total_cost) ↔
      (cfgW8.gradual_lots.map GradualLot.sell_percent).sum = 100) ∧
    (((rW8.lot_results.map LotResult.cost).sum < rW8.total_cost) ↔
      (cfgW8.gradual_lots.map GradualLot.sell_percent).sum < 100) :=
  have hne : cfgW8.gradual_lots ≠ [] := by simp [cfgW8]
  have hpos : (0 : ℚ) < cfgW8.entry_price * 100 := by norm_num [cfgW8]
  have hsome : simulate_gradual_sell cfgW8 100 = some rW8 := by
    unfold simulate_gradual_sell
    rw [if_neg hne]
    norm_num [gradual_lot_results, gradual_lot_result, cfgW8, rW8]
  ⟨hne, hpos, hsome,
    (claim_C8_cost_allocation cfgW8 100 rW8 hne hpos hsome).1,
    (claim_C8_cost_allocation cfgW8 100 rW8 hne hpos hsome).2⟩

/-- Counterexample to C8 as stated: with stages 60/60 (summing to 120,
not 100) the allocated costs sum to 19.008 while the total cost basis is
15.84 — the sum is neither equal to nor strictly less than the total. -/
theorem claim_C8_counterexample :
    (cfg60.gradual_lots.map GradualLot.sell_percent).sum ≠ 100 ∧
    (simulate_gradual_sell cfg60 (11/25)).map
        (fun r => ((r.lot_results.map LotResult.cost).sum, r.total_cost))
      = some (2376/125, 396/25) ∧
    ¬((2376/125 : ℚ) = 396/25 ∨ (2376/125 : ℚ) < 396/25) := by
  refine ⟨by norm_num [cfg60], ?_, by norm_num⟩
  unfold simulate_gradual_sell
  rw [if_neg (by simp [cfg60])]
  norm_num [gradual_lot_results, gradual_lot_result, cfg60]

/-- C1: at any tick whose change percent is at or below the negative
stop-loss threshold while more than 1e-4 units remain, the stop-loss fires
before any take-profit check: the walk emits exactly one STOP_LOSS event —
liquidating the whole remaining quantity at the tick's price, with cost
basis `(remaining / quantity) * total_cost`, fee on the sale value and
net = gross - fee — sets the remaining quantity to zero, and evaluates no
later tick (the result does not depend on `rest`). -/
theorem claim_C1_stop_loss_preempts (c : StrategyConfig)
    (quantity total_cost : ℚ) (tick : ℕ) (price : ℚ) (s : WalkState)
    (rest : List ℚ)
    (hsl : (price - c.entry_price) / c.entry_price * 100 ≤ -c.sl_percent)
    (hrem : s.remaining > 1/10000) :
    walk c quantity total_cost tick s (price :: rest) =
      ([PSEvent.stopLoss tick price
          (pyRound 2 ((price - c.entry_price) / c.entry_price * 100))
          (pyRound 8 s.remaining)
          (pyRound 1 (s.remaining / quantity * 100))
          (pyRound 2 (s.remaining * price - s.remaining / quantity * total_cost))
          (pyRound 2 (s.remaining * price * (c.fee_percent / 100)))
          (pyRound 2 (s.remaining * price - s.remaining / quantity * total_cost
            - s.remaining * price * (c.fee_percent / 100)))],
        { s with
          remaining := 0
          realized := s.realized +
            (s.remaining * price - s.remaining / quantity * total_cost
              - s.remaining * price * (c.fee_percent / 100))
          fees := s.fees + s.remaining * price * (c.fee_percent / 100) }) := by
  have hdt : doTick c quantity total_cost tick price s =
      ([PSEvent.stopLoss tick price
          (pyRound 2 ((price - c.entry_price) / c.entry_price * 100))
          (pyRound 8 s.remaining)
          (pyRound 1 (s.remaining / quantity * 100))
          (pyRound 2 (s.remaining * price - s.remaining / quantity * total_cost))
          (pyRound 2 (s.remaining * price * (c.fee_percent / 100)))
          (pyRound 2 (s.remaining * price - s.remaining / quantity * total_cost
            - s.remaining * price * (c.fee_percent / 100)))],
        { s with
          remaining := 0
          realized := s.realized +
            (s.remaining * price - s.remaining / quantity * total_cost
              - s.remaining * price * (c.fee_percent / 100))
          fees := s.fees + s.remaining * price * (c.fee_percent / 100) },
        false) := by
    simp only [doTick]
    rw [if_pos ⟨hsl, hrem⟩]
  simp only [walk, hdt]
  simp

/-- Witness for C1: the default configuration, quantity 1, at price 34
(a -5.56% move against entry 36) with one later tick that is never
evaluated. -/
theorem claim_C1_witness :
    ((34 : ℚ) - stdCfg.entry_price) / stdCfg.entry_price * 100
      ≤ -stdCfg.sl_percent ∧
    (initState stdCfg 1).remaining > 1/10000 ∧
    walk stdCfg 1 36 0 (initState stdCfg 1) [34, 50] =
      ([PSEvent.stopLoss 0 34
          (pyRound 2 ((34 - stdCfg.entry_price) / stdCfg.entry_price * 100))
          (pyRound 8 (initState stdCfg 1).remaining)
          (pyRound 1 ((initState stdCfg 1).remaining / 1 * 100))
          (pyRound 2 ((initState stdCfg 1).remaining * 34
            - (initState stdCfg 1).remaining / 1 * 36))
          (pyRound 2 ((initState stdCfg 1).remaining * 34
            * (stdCfg.fee_percent / 100)))
          (pyRound 2 ((initState stdCfg 1).remaining * 34
            - (initState stdCfg 1).remaining / 1 * 36
            - (initState stdCfg 1).remaining * 34 * (stdCfg.fee_percent / 100)))],
        { initState stdCfg 1 with
          remaining := 0
          realized := (initState stdCfg 1).realized +
            ((initState stdCfg 1).remaining * 34
              - (initState stdCfg 1).remaining / 1 * 36
              - (initState stdCfg 1).remaining * 34 * (stdCfg.fee_percent / 100))
          fees := (initState stdCfg 1).fees +
            (initState stdCfg 1).remaining * 34 * (stdCfg.fee_percent / 100) }) :=
  have h1 : ((34 : ℚ) - stdCfg.entry_price) / stdCfg.entry_price * 100
      ≤ -stdCfg.sl_percent := by norm_num [stdCfg]
  have h2 : (initState stdCfg 1).remaining > 1/10000 := by
    norm_num [initState, stdCfg]
  ⟨h1, h2,
    claim_C1_stop_loss_preempts stdCfg 1 36 0 34 (initState stdCfg 1) [50] h1 h2⟩

/-- A walker lot is eligible at a tick when its `executed` flag is false
and its threshold is reached by the tick's change percent. -/
def eligible (change_pct : ℚ) (l : WalkLot) : Bool :=
  !l.executed && decide (change_pct ≥ l.tp_pct)

/-- The walker's stage scan fires exactly the first eligible lot: it
returns the lot at the least eligible index together with the lot list
updated only at that index, and `none` when no lot is eligible. -/
theorem fireFirst_eq_findIdx (ch : ℚ) (lots : List WalkLot) :
    fireFirst ch lots =
      match lots[lots.findIdx (eligible ch)]? with
      | some l => some (lots.findIdx (eligible ch), l,
          lots.set (lots.findIdx (eligible ch)) { l with executed := true })
      | none => none := by
  induction lots with
  | nil => rfl
  | cons l ls ih =>
    have key : eligible ch l = true ↔ (l.executed = false ∧ ch ≥ l.tp_pct) := by
      simp [eligible]
    by_cases hl : l.executed = false ∧ ch ≥ l.tp_pct
    · have hp : eligible ch l = true := key.mpr hl
      simp [fireFirst, if_pos hl, List.findIdx_cons, hp]
    · have hp : eligible ch l = false := by
        cases hec : eligible ch l
        · rfl
        · exact absurd (key.mp hec) hl
      simp only [fireFirst, if_neg hl, List.findIdx_cons, hp, cond_false]
      rw [ih]
      rcases h2 : ls[ls.findIdx (eligible ch)]? with _ | x
      · simp [h2]
      · simp [h2]

/-- C2: at a tick where the stop-loss does not fire and stages are
configured, at most one stage executes: writing `k` for the index of the
first stage whose `executed` flag is false and whose threshold is at or
below the tick's change percent, the tick flips exactly that stage's flag
(every other stage, eligible or not, is left as it was), sells
`quantity * sell_percent / 100` at the tick's price, and emits the single
event `TP_LOT_(k+1)`; when no stage is eligible the state is unchanged and
no event is emitted. -/
theorem claim_C2_one_stage_per_tick (c : StrategyConfig)
    (quantity total_cost : ℚ) (tick : ℕ) (price ch : ℚ) (s : WalkState)
    (k : ℕ)
    (hch : ch = (price - c.entry_price) / c.entry_price * 100)
    (hk : k = s.lots.findIdx (eligible ch))
    (hlots : s.lots ≠ [])
    (hnoSL : ¬(ch ≤ -c.sl_percent ∧ s.remaining > 1/10000)) :
    (doTick c quantity total_cost tick price s).2.1.lots =
      (match s.lots[k]? with
       | some l => s.lots.set k { l with executed := true }
       | none => s.lots) ∧
    (doTick c quantity total_cost tick price s).2.1.remaining =
      (match s.lots[k]? with
       | some l => s.remaining - quantity * (l.sell_pct / 100)
       | none => s.remaining) ∧
    (doTick c quantity total_cost tick price s).1 =
      (match s.lots[k]? with
       | some l =>
         [PSEvent.tpLot tick price (pyRound 2 ch) (k + 1)
            (pyRound 8 (quantity * (l.sell_pct / 100))) l.sell_pct l.tp_pct
            (pyRound 2 (quantity * (l.sell_pct / 100) * price
              - total_cost * (l.sell_pct / 100)))
            (pyRound 2 (quantity * (l.sell_pct / 100) * price
              * (c.fee_percent / 100)))
            (pyRound 2 (quantity * (l.sell_pct / 100) * price
              - total_cost * (l.sell_pct / 100)
              - quantity * (l.sell_pct / 100) * price * (c.fee_percent / 100)))]
       | none => []) := by
  subst hch
  subst hk
  simp only [doTick]
  rw [if_neg hnoSL, if_pos hlots, fireFirst_eq_findIdx]
  rcases hL : s.lots[s.lots.findIdx
      (eligible ((price - c.entry_price) / c.entry_price * 100))]? with _ | l
  · simp [hL]
  · simp [hL]

/-- Witness for C2: two stages (50/50, thresholds 10/20) both newly
satisfied by a +25% tick; only the first fires (event TP_LOT_1), the
second stays pending. -/
theorem claim_C2_witness :
    (doTick cfg5050 1 36 0 45 (initState cfg5050 1)).2.1.lots =
      [{ sell_pct := 50, tp_pct := 10, executed := true },
       { sell_pct := 50, tp_pct := 20, executed := false }] ∧
    (doTick cfg5050 1 36 0 45 (initState cfg5050 1)).2.1.remaining = 1/2 ∧
    (doTick cfg5050 1 36 0 45 (initState cfg5050 1)).1 =
      [PSEvent.tpLot 0 45 25 1 (1/2) 50 10 (9/2) (11/100) (439/100)] :=
  have h := claim_C2_one_stage_per_tick cfg5050 1 36 0 45 25
    (initState cfg5050 1) 0 (by norm_num [cfg5050])
    (by norm_num [initState, cfg5050, eligible, List.findIdx_cons])
    (by simp [initState, cfg5050]) (by norm_num [cfg5050])
  ⟨h.1.trans (by norm_num [initState, cfg5050]),
   h.2.1.trans (by norm_num [initState, cfg5050]),
   h.2.2.trans (by norm_num [initState, cfg5050, pyRound, roundHalfEven])⟩

/-- No event appended during a tick is a SUMMARY entry. -/
theorem doTick_no_summary (c : StrategyConfig) (q tc : ℚ) (t : ℕ) (p : ℚ)
    (s : WalkState) : ∀ e ∈ (doTick c q tc t p s).1, e.isSummary = false := by
  intro e he
  simp only [doTick] at he
  split at he
  · simp only [List.mem_singleton] at he
    subst he
    rfl
  · split at he
    · split at he
      · simp at he
      · simp only [List.mem_singleton] at he
        subst he
        rfl
    · split at he
      · simp only [List.mem_singleton] at he
        subst he
        rfl
      · simp at he

/-- No event emitted by the tick loop is a SUMMARY entry. -/
theorem walk_no_summary (c : StrategyConfig) (q tc : ℚ) :
    ∀ (prices : List ℚ) (t : ℕ) (s : WalkState),
      ∀ e ∈ (walk c q tc t s prices).1, e.isSummary = false := by
  intro prices
  induction prices with
  | nil =>
    intro t s e he
    simp [walk] at he
  | cons p rest ih =>
    intro t s e he
    simp only [walk] at he
    by_cases hc : (doTick c q tc t p s).2.2 = true
    · rw [if_pos hc] at he
      simp only [List.mem_append] at he
      rcases he with he | he
      · exact doTick_no_summary c q tc t p s e he
      · exact ih (t + 1) _ e he
    · rw [if_neg hc] at he
      exact doTick_no_summary c q tc t p s e he

/-- C5 (amended): whenever `simulate_price_series` completes, the event
log contains exactly one SUMMARY entry and it is the last entry; it
carries the cumulative realized net P&L, cumulative fees and remaining
quantity of the final walk state (rounded as the source stores them), the
remaining percent (0 unless quantity is positive), an overall return
percent equal to the rounded realized-over-total-cost ratio when the total
cost is positive and 0 otherwise, and status COMPLETED exactly when the
remaining quantity is at or below 1e-4, else OPEN. -/
theorem claim_C5_summary_entry (c : StrategyConfig) (quantity : ℚ)
    (prices : List ℚ) (evs : List PSEvent)
    (h : simulate_price_series c quantity prices = some evs) :
    evs.getLast? = some (PSEvent.summary
      (pyRound 2 (walk c quantity (c.entry_price * quantity) 0
        (initState c quantity) prices).2.realized)
      (pyRound 2 (walk c quantity (c.entry_price * quantity) 0
        (initState c quantity) prices).2.fees)
      (pyRound 8 (walk c quantity (c.entry_price * quantity) 0
        (initState c quantity) prices).2.remaining)
      (if quantity > 0 then
        pyRound 1 ((walk c quantity (c.entry_price * quantity) 0
          (initState c quantity) prices).2.remaining / quantity * 100)
      else 0)
      (if c.entry_price * quantity > 0 then
        pyRound 2 ((walk c quantity (c.entry_price * quantity) 0
          (initState c quantity) prices).2.realized
            / (c.entry_price * quantity) * 100)
      else 0)
      (if (walk c quantity (c.entry_price * quantity) 0
          (initState c quantity) prices).2.remaining ≤ 1/10000 then
        "COMPLETED"
      else "OPEN")) ∧
    (evs.filter PSEvent.isSummary).length = 1 := by
  simp only [simulate_price_series] at h
  split at h
  · cases h
  · obtain rfl := Option.some.inj h
    constructor
    · simp [mkSummary]
    · rw [List.filter_append]
      have hnil : ((walk c quantity (c.entry_price * quantity) 0
          (initState c quantity) prices).1.filter PSEvent.isSummary) = [] := by
        rw [List.filter_eq_nil_iff]
        intro e he
        simp [walk_no_summary c quantity (c.entry_price * quantity) prices 0
          (initState c quantity) e he]
      rw [hnil]
      simp [mkSummary, PSEvent.isSummary, List.filter]

/-- Witness for C5: the default configuration over an empty price series
produces exactly the one OPEN summary. -/
theorem claim_C5_witness :
    simulate_price_series stdCfg 1 [] =
      some [PSEvent.summary 0 0 1 100 0 "OPEN"] ∧
    [PSEvent.summary 0 0 1 100 0 "OPEN"].getLast? = some (PSEvent.summary
      (pyRound 2 (walk stdCfg 1 (stdCfg.entry_price * 1) 0
        (initState stdCfg 1) []).2.realized)
      (pyRound 2 (walk stdCfg 1 (stdCfg.entry_price * 1) 0
        (initState stdCfg 1) []).2.fees)
      (pyRound 8 (walk stdCfg 1 (stdCfg.entry_price * 1) 0
        (initState stdCfg 1) []).2.remaining)
      (if (1 : ℚ) > 0 then
        pyRound 1 ((walk stdCfg 1 (stdCfg.entry_price * 1) 0
          (initState stdCfg 1) []).2.remaining / 1 * 100)
      else 0)
      (if stdCfg.entry_price * 1 > 0 then
        pyRound 2 ((walk stdCfg 1 (stdCfg.entry_price * 1) 0
          (initState stdCfg 1) []).2.realized
            / (stdCfg.entry_price * 1) * 100)
      else 0)
      (if (walk stdCfg 1 (stdCfg.entry_price * 1) 0
          (initState stdCfg 1) []).2.remaining ≤ 1/10000 then
        "COMPLETED"
      else "OPEN")) ∧
    ([PSEvent.summary 0 0 1 100 0 "OPEN"].filter PSEvent.isSummary).length
      = 1 :=
  have hs : simulate_price_series stdCfg 1 [] =
      some [PSEvent.summary 0 0 1 100 0 "OPEN"] := by
    norm_num [simulate_price_series, walk, initState, mkSummary, pyRound,
      roundHalfEven, stdCfg]
  have h := claim_C5_summary_entry stdCfg 1 []
    [PSEvent.summary 0 0 1 100 0 "OPEN"] hs
  ⟨hs, h.1, h.2⟩

/-- Counterexample to C5 as stated: with entry price -1 and quantity 1
(total cost -1, not zero) a stop-loss at price 1 realizes 1.995, yet the
summary's return percent is 0 — not the realized-over-cost ratio -199.5 —
because the source tests `total_cost > 0`, not `total_cost = 0`. -/
theorem claim_C5_counterexample :
    lastReturnPct (simulate_price_series cfgNeg 1 [1]) = some 0 ∧
    (walk cfgNeg 1 (cfgNeg.entry_price * 1) 0 (initState cfgNeg 1) [1]).2.realized
        / (cfgNeg.entry_price * 1) * 100 = -(399/2) ∧
    cfgNeg.entry_price * (1 : ℚ) ≠ 0 := by
  refine ⟨?_, ?_, by norm_num [cfgNeg]⟩
  · norm_num [lastReturnPct, simulate_price_series, walk, doTick, initState,
      mkSummary, cfgNeg, pyRound, roundHalfEven]
  · norm_num [walk, doTick, initState, cfgNeg, pyRound, roundHalfEven]

/-- Summed sell-percent of the executed walker lots. -/
def execSum (lots : List WalkLot) : ℚ :=
  ((lots.filter fun l => l.executed).map WalkLot.sell_pct).sum

/-- Summed sell-percent of all walker lots. -/
def pctSum (lots : List WalkLot) : ℚ :=
  (lots.map WalkLot.sell_pct).sum

/-- `execSum` over a cons. -/
theorem execSum_cons (a : WalkLot) (t : List WalkLot) :
    execSum (a :: t) =
      if a.executed = true then a.sell_pct + execSum t else execSum t := by
  simp only [execSum, List.filter_cons]
  split <;> simp

/-- With nonnegative percentages the executed lots' share is at most the
whole stage list's share. -/
theorem execSum_le_pctSum (lots : List WalkLot)
    (hnn : ∀ x ∈ lots.map WalkLot.sell_pct, 0 ≤ x) :
    execSum lots ≤ pctSum lots := by
  induction lots with
  | nil => simp [execSum, pctSum]
  | cons a t ih =>
    have ha : 0 ≤ a.sell_pct := hnn _ (by simp)
    have ht : ∀ x ∈ t.map WalkLot.sell_pct, 0 ≤ x := by
      intro x hx
      exact hnn x (by simp [hx])
    have hrec := ih ht
    simp only [pctSum] at hrec ⊢
    rw [execSum_cons]
    simp only [List.map_cons, List.sum_cons]
    split <;> linarith

/-- A fired stage: the scan preserves every lot's percentage, adds the
fired lot's percentage to the executed share, fires only a pending lot,
and fires a percentage drawn from the list. -/
theorem fireFirst_facts {ch : ℚ} :
    ∀ {lots : List WalkLot} {i : ℕ} {l : WalkLot} {lots' : List WalkLot},
      fireFirst ch lots = some (i, l, lots') →
      lots'.map WalkLot.sell_pct = lots.map WalkLot.sell_pct ∧
      execSum lots' = execSum lots + l.sell_pct ∧
      l.executed = false ∧
      l.sell_pct ∈ lots.map WalkLot.sell_pct := by
  intro lots
  induction lots with
  | nil => intro i l lots' h; cases h
  | cons a ls ih =>
    intro i l lots' h
    simp only [fireFirst] at h
    by_cases hc : a.executed = false ∧ ch ≥ a.tp_pct
    · rw [if_pos hc] at h
      obtain h' := Option.some.inj h
      rw [Prod.mk.injEq, Prod.mk.injEq] at h'
      obtain ⟨-, rfl, rfl⟩ := h'
      refine ⟨by simp, ?_, hc.1, by simp⟩
      rw [execSum_cons, execSum_cons]
      simp [hc.1]
      ring
    · rw [if_neg hc] at h
      rcases hrec : fireFirst ch ls with _ | ⟨j, x, ls'⟩ <;> rw [hrec] at h
      · cases h
      · obtain h' := Option.some.inj h
        rw [Prod.mk.injEq, Prod.mk.injEq] at h'
        obtain ⟨-, rfl, rfl⟩ := h'
        obtain ⟨hm, he, hex, hmem⟩ := ih hrec
        refine ⟨by simp [hm], ?_, hex, by simp [hmem]⟩
        rw [execSum_cons, execSum_cons, he]
        split <;> ring

/-- What one tick can do to the walker state: leave it unchanged,
liquidate everything (stop-loss or unstaged take-profit, both of which
also end the walk), or fire one scanned stage. -/
theorem doTick_cases (c : StrategyConfig) (q tc : ℚ) (t : ℕ) (p : ℚ)
    (s : WalkState) :
    (doTick c q tc t p s).2.1 = s ∨
    (1/10000 < s.remaining ∧ (doTick c q tc t p s).2.1.lots = s.lots ∧
      (doTick c q tc t p s).2.1.remaining = 0 ∧
      (doTick c q tc t p s).2.2 = false) ∨
    (∃ i l lots',
      fireFirst ((p - c.entry_price) / c.entry_price * 100) s.lots
        = some (i, l, lots') ∧
      (doTick c q tc t p s).2.1.lots = lots' ∧
      (doTick c q tc t p s).2.1.remaining
        = s.remaining - q * (l.sell_pct / 100)) := by
  by_cases hSL : (p - c.entry_price) / c.entry_price * 100 ≤ -c.sl_percent ∧
      s.remaining > 1/10000
  · right; left
    refine ⟨hSL.2, ?_, ?_, ?_⟩ <;>
      · simp only [doTick]
        rw [if_pos hSL]
  · by_cases hl : s.lots ≠ []
    · rcases hf : fireFirst ((p - c.entry_price) / c.entry_price * 100) s.lots
        with _ | ⟨i, l, lots'⟩
      · left
        simp only [doTick]
        rw [if_neg hSL, if_pos hl, hf]
      · right; right
        refine ⟨i, l, lots', rfl, ?_, ?_⟩ <;>
          · simp only [doTick]
            rw [if_neg hSL, if_pos hl, hf]
    · by_cases hTP : (p - c.entry_price) / c.entry_price * 100 ≥ c.tp_percent ∧
          s.remaining > 1/10000
      · right; left
        refine ⟨hTP.2, ?_, ?_, ?_⟩ <;>
          · simp only [doTick]
            rw [if_neg hSL, if_neg hl, if_pos hTP]
      · left
        simp only [doTick]
        rw [if_neg hSL, if_neg hl, if_neg hTP]

/-- The first remaining quantity recorded by `walkStates` is the starting
state's. -/
theorem walkStates_map_head (c : StrategyConfig) (q tc : ℚ) (t : ℕ)
    (s : WalkState) (prices : List ℚ) :
    ((walkStates c q tc t s prices).map WalkState.remaining).head?
      = some s.remaining := by
  cases prices <;> simp [walkStates]

/-- Extending a non-increasing list on the left by a bound of its head. -/
theorem nonincreasing_cons (x : ℚ) (L : List ℚ)
    (hL : nonincreasing L = true)
    (hx : ∀ y, L.head? = some y → y ≤ x) :
    nonincreasing (x :: L) = true := by
  cases L with
  | nil => rfl
  | cons y t =>
    simp only [nonincreasing, Bool.and_eq_true, decide_eq_true_eq]
    exact ⟨hx y rfl, hL⟩

/-- A remaining quantity written as the unsold share of a nonnegative
position is nonnegative while the stages cannot oversell. -/
theorem remaining_nonneg_of_formula (q : ℚ) (hq : 0 ≤ q)
    (lots : List WalkLot) (hnn : ∀ x ∈ lots.map WalkLot.sell_pct, 0 ≤ x)
    (hsum : pctSum lots ≤ 100) : 0 ≤ q * (1 - execSum lots / 100) := by
  have h1 := execSum_le_pctSum lots hnn
  exact mul_nonneg hq (by linarith)

/-- The walk's remaining quantity never increases from tick to tick, and —
as long as the configured stages cannot oversell the position — never goes
negative. -/
theorem walk_remaining_invariant (c : StrategyConfig)
    (quantity total_cost : ℚ) (hq : 0 ≤ quantity) :
    ∀ (prices : List ℚ) (t : ℕ) (s : WalkState),
      (∀ x ∈ s.lots.map WalkLot.sell_pct, 0 ≤ x) →
      nonincreasing ((walkStates c quantity total_cost t s prices).map
        WalkState.remaining) = true ∧
      (s.remaining = quantity * (1 - execSum s.lots / 100) →
        pctSum s.lots ≤ 100 →
        ∀ st ∈ walkStates c quantity total_cost t s prices,
          0 ≤ st.remaining) := by
  intro prices
  induction prices with
  | nil =>
    intro t s hnn
    constructor
    · rfl
    · intro hform hsum st hst
      simp only [walkStates, List.mem_singleton] at hst
      subst hst
      rw [hform]
      exact remaining_nonneg_of_formula quantity hq _ hnn hsum
  | cons p rest ih =>
    intro t s hnn
    rcases doTick_cases c quantity total_cost t p s with hid | hliq | hfire
    · -- the tick leaves the state unchanged
      by_cases hc : (doTick c quantity total_cost t p s).2.2 = true
      · have heq : walkStates c quantity total_cost t s (p :: rest) =
            s :: walkStates c quantity total_cost (t + 1) s rest := by
          simp only [walkStates, hid, if_pos hc]
        rw [heq]
        obtain ⟨ih1, ih2⟩ := ih (t + 1) s hnn
        constructor
        · simp only [List.map_cons]
          refine nonincreasing_cons _ _ ih1 ?_
          intro y hy
          rw [walkStates_map_head] at hy
          obtain rfl := Option.some.inj hy
          exact le_refl _
        · intro hform hsum st hst
          simp only [List.mem_cons] at hst
          rcases hst with rfl | hst
          · rw [hform]
            exact remaining_nonneg_of_formula quantity hq _ hnn hsum
          · exact ih2 hform hsum st hst
      · have heq : walkStates c quantity total_cost t s (p :: rest) =
            [s, s] := by
          simp only [walkStates, hid, if_neg hc]
        rw [heq]
        constructor
        · simp [nonincreasing]
        · intro hform hsum st hst
          simp only [List.mem_cons, List.mem_singleton, List.not_mem_nil,
            or_false] at hst
          have hsts : st = s := by tauto
          subst hsts
          rw [hform]
          exact remaining_nonneg_of_formula quantity hq _ hnn hsum
    · -- the tick liquidates the whole position and ends the walk
      obtain ⟨hpos, hlots, hrem, hcont⟩ := hliq
      have heq : walkStates c quantity total_cost t s (p :: rest) =
          [s, (doTick c quantity total_cost t p s).2.1] := by
        simp only [walkStates, hcont]
        simp
      rw [heq]
      constructor
      · simp only [List.map_cons, List.map_nil, nonincreasing, hrem,
          Bool.and_eq_true, decide_eq_true_eq]
        exact ⟨by linarith, trivial⟩
      · intro hform hsum st hst
        simp only [List.mem_cons, List.mem_singleton, List.not_mem_nil,
          or_false] at hst
        rcases hst with rfl | rfl
        · rw [hform]
          exact remaining_nonneg_of_formula quantity hq _ hnn hsum
        · rw [hrem]
    · -- the tick fires exactly one stage
      obtain ⟨i, l, lots', hf, hlots, hrem⟩ := hfire
      obtain ⟨hmap, hexec, -, hmem⟩ := fireFirst_facts hf
      have hlpct : 0 ≤ l.sell_pct := hnn _ hmem
      have hdec : (doTick c quantity total_cost t p s).2.1.remaining
          ≤ s.remaining := by
        rw [hrem]
        have : 0 ≤ quantity * (l.sell_pct / 100) :=
          mul_nonneg hq (by linarith)
        linarith
      have hnn' : ∀ x ∈ (doTick c quantity total_cost t p s).2.1.lots.map
          WalkLot.sell_pct, 0 ≤ x := by
        rw [hlots, hmap]
        exact hnn
      have hform' : s.remaining = quantity * (1 - execSum s.lots / 100) →
          (doTick c quantity total_cost t p s).2.1.remaining =
            quantity * (1 - execSum
              (doTick c quantity total_cost t p s).2.1.lots / 100) := by
        intro hform
        rw [hrem, hlots, hexec, hform]
        ring
      have hsum' : pctSum s.lots ≤ 100 →
          pctSum (doTick c quantity total_cost t p s).2.1.lots ≤ 100 := by
        intro hsum
        rw [hlots]
        simpa only [pctSum, hmap] using hsum
      by_cases hc : (doTick c quantity total_cost t p s).2.2 = true
      · have heq : walkStates c quantity total_cost t s (p :: rest) =
            s :: walkStates c quantity total_cost (t + 1)
              (doTick c quantity total_cost t p s).2.1 rest := by
          simp only [walkStates, if_pos hc]
        rw [heq]
        obtain ⟨ih1, ih2⟩ :=
          ih (t + 1) (doTick c quantity total_cost t p s).2.1 hnn'
        constructor
        · simp only [List.map_cons]
          refine nonincreasing_cons _ _ ih1 ?_
          intro y hy
          rw [walkStates_map_head] at hy
          obtain rfl := Option.some.inj hy
          exact hdec
        · intro hform hsum st hst
          simp only [List.mem_cons] at hst
          rcases hst with rfl | hst
          · rw [hform]
            exact remaining_nonneg_of_formula quantity hq _ hnn hsum
          · exact ih2 (hform' hform) (hsum' hsum) st hst
      · have heq : walkStates c quantity total_cost t s (p :: rest) =
            [s, (doTick c quantity total_cost t p s).2.1] := by
          simp only [walkStates, if_neg hc]
        rw [heq]
        constructor
        · simp only [List.map_cons, List.map_nil, nonincreasing,
            Bool.and_eq_true, decide_eq_true_eq]
          exact ⟨hdec, trivial⟩
        · intro hform hsum st hst
          simp only [List.mem_cons, List.mem_singleton, List.not_mem_nil,
            or_false] at hst
          rcases hst with rfl | rfl
          · rw [hform]
            exact remaining_nonneg_of_formula quantity hq _ hnn hsum
          · rw [hform' hform]
            exact remaining_nonneg_of_formula quantity hq _ hnn'
              (hsum' hsum)

/-- No lot of a freshly built walker state is executed. -/
theorem execSum_initState (c : StrategyConfig) (quantity : ℚ) :
    execSum (initState c quantity).lots = 0 := by
  simp only [initState]
  induction c.gradual_lots with
  | nil => rfl
  | cons a t ih => rw [List.map_cons, execSum_cons]; simpa using ih

/-- C4 (amended): with a nonnegative quantity and nonnegative stage
sell-percentages, the walker's remaining quantity is monotonically
non-increasing tick over tick for every configuration and every finite
price sequence; when moreover the sell-percentages sum to at most 100 it
is never negative at any point of the walk (over-allocated stage lists can
drive it negative). -/
theorem claim_C4_remaining_monotone (c : StrategyConfig) (quantity : ℚ)
    (prices : List ℚ) (hq : 0 ≤ quantity)
    (hl : c.gradual_lots.all (fun l => decide (0 ≤ l.sell_percent)) = true) :
    nonincreasing ((walkStates c quantity (c.entry_price * quantity) 0
      (initState c quantity) prices).map WalkState.remaining) = true ∧
    ((c.gradual_lots.map GradualLot.sell_percent).sum ≤ 100 →
      (walkStates c quantity (c.entry_price * quantity) 0
        (initState c quantity) prices).all
          (fun st => decide (0 ≤ st.remaining)) = true) := by
  have hmapinit : (initState c quantity).lots.map WalkLot.sell_pct
      = c.gradual_lots.map GradualLot.sell_percent := by
    simp [initState, List.map_map]
  have hnn : ∀ x ∈ (initState c quantity).lots.map WalkLot.sell_pct, 0 ≤ x := by
    rw [hmapinit]
    intro x hx
    simp only [List.all_eq_true, decide_eq_true_eq] at hl
    obtain ⟨g, hg, rfl⟩ := List.mem_map.mp hx
    exact hl g hg
  obtain ⟨h1, h2⟩ := walk_remaining_invariant c quantity
    (c.entry_price * quantity) hq prices 0 (initState c quantity) hnn
  refine ⟨h1, ?_⟩
  intro hsum
  have hform : (initState c quantity).remaining =
      quantity * (1 - execSum (initState c quantity).lots / 100) := by
    rw [execSum_initState]
    simp [initState]
  have hsum' : pctSum (initState c quantity).lots ≤ 100 := by
    simpa only [pctSum, hmapinit] using hsum
  have h3 := h2 hform hsum'
  rw [List.all_eq_true]
  intro st hst
  simpa using h3 st hst

/-- Witness for C4: two 50% stages, quantity 1, two +25% ticks — remaining
quantities 1, 1/2, 0, non-increasing and nonnegative. -/
theorem claim_C4_witness :
    (0 : ℚ) ≤ 1 ∧
    cfg5050.gradual_lots.all (fun l => decide (0 ≤ l.sell_percent)) = true ∧
    nonincreasing ((walkStates cfg5050 1 (cfg5050.entry_price * 1) 0
      (initState cfg5050 1) [45, 45]).map WalkState.remaining) = true ∧
    (walkStates cfg5050 1 (cfg5050.entry_price * 1) 0
      (initState cfg5050 1) [45, 45]).all
        (fun st => decide (0 ≤ st.remaining)) = true :=
  have hq : (0 : ℚ) ≤ 1 := by norm_num
  have hl : cfg5050.gradual_lots.all
      (fun l => decide (0 ≤ l.sell_percent)) = true := by
    norm_num [cfg5050]
  have h := claim_C4_remaining_monotone cfg5050 1 [45, 45] hq hl
  ⟨hq, hl, h.1, h.2 (by norm_num [cfg5050])⟩

/-- Counterexample to C4 as stated: with over-allocated stages (60/60) and
two +25% ticks the walk's remaining quantity goes 1, 2/5, -1/5 — negative
at the end of the walk. -/
theorem claim_C4_counterexample :
    (walkStates cfg60 1 (cfg60.entry_price * 1) 0 (initState cfg60 1)
      [45, 45]).map WalkState.remaining = [1, 2/5, -(1/5)] ∧
    (-(1/5) : ℚ) < 0 := by
  refine ⟨?_, by norm_num⟩
  norm_num [walkStates, doTick, initState, cfg60, fireFirst, pyRound,
    roundHalfEven]
  norm_num [List.cons_ne_nil]

end StrategySim
